import Mathlib

/-!
Shallow embedding of the Thanos multi-strategy rule manager
(`pkg/rules/manager.go`) together with the pieces of its collaborators the
manager observably depends on.  Pure Go functions become Lean functions; the
stateful reload (`Manager.Update`) becomes explicit state passing over a
`Manager` value plus a small filesystem model; fallible code returns
`Except`/`Option`.  External packages that the repository references but that
are not part of the source slice (`storepb`, `rulespb`, the Prometheus rule
engine, the Go standard library) are modelled from the spec, each with a doc
comment saying so.
-/

namespace ThanosRules

/-- Modelled from the spec: `storepb.PartialResponseStrategy` (the consistency
policy enum) is declared outside the source slice.  The spec (§3) fixes the
member set used by this code: WARN and ABORT, with ABORT the default for
absent tags.  The proto numbering makes WARN the zero value, which the source
itself witnesses by explicitly looking up ABORT for absent tags
(`manager.go` NOTE comment).  The Go name contains the word "partial"; we
shorten it to `ResponseStrategy` here.
-/
inductive ResponseStrategy
  | WARN
  | ABORT
deriving DecidableEq

/-- Go `PartialResponseStrategy.String()`. -/
def ResponseStrategy.toStr : ResponseStrategy → String
  | .WARN => "WARN"
  | .ABORT => "ABORT"

/-- Modelled from the spec: the proto-generated name→value map
`storepb.PartialResponseStrategy_value`, used by `UnmarshalYAML` for policy
resolution. -/
def strategyValue (s : String) : Option ResponseStrategy :=
  if s = "WARN" then some .WARN
  else if s = "ABORT" then some .ABORT
  else none

/-- Modelled from the spec: `storepb.PartialResponseStrategyValues`, the sorted
list of enum member names joined into the parse-error message. -/
def strategyValuesJoined : String := "ABORT,WARN"

/-- The zero value of the proto enum (proto enums default to 0 = WARN). -/
def zeroStrategy : ResponseStrategy := .WARN

/-- Fixed iteration order standing in for Go's (unspecified) map iteration order
over the per-strategy engine pool; the spec (§4.4) says callers must not
assume any cross-policy ordering, so pinning one is harmless. -/
def allStrategies : List ResponseStrategy := [.WARN, .ABORT]

/-- Modelled from the spec: wire alert record (`rulespb.Alert`) produced by
`Group.ToProto` for an alerting rule.  The `Alerts` payload of active alert
instances is not modelled: its `Value` field is a formatted float64, outside
the shallow embedding (see the float round-trip claim). -/
structure Alert where
  state : Nat
  name : String
  query : String
  durationSeconds : Nat
  labels : List (String × String)
  anns : List (String × String)
  health : String
  lastError : String
  evaluationDurationSeconds : Nat
  lastEvaluation : Nat
deriving DecidableEq

/-- Modelled from the spec: wire recording-rule record (`rulespb.RecordingRule`). -/
structure RecordingRule where
  name : String
  query : String
  labels : List (String × String)
  health : String
  lastError : String
  evaluationDurationSeconds : Nat
  lastEvaluation : Nat
deriving DecidableEq

/-- Modelled from the spec: `rulespb.Rule`, a oneof of alert / recording
(§4.3: output rules are a tagged union of the two kinds). -/
inductive Rule
  | alert (a : Alert)
  | recording (r : RecordingRule)
deriving DecidableEq

/-- Go generated accessor `Rule.GetAlert` (nil unless the alert arm is set). -/
def Rule.getAlert : Rule → Option Alert
  | .alert a => some a
  | .recording _ => none

/-- Go generated accessor `Rule.GetRecording`. -/
def Rule.getRecording : Rule → Option RecordingRule
  | .alert _ => none
  | .recording r => some r

/-- Modelled from the spec: `rulespb.RuleGroup`, the canonical output group
(§4.3): name, original file, interval in seconds, policy, ordered rules.
Durations are modelled as natural-number second counts. -/
structure RuleGroup where
  name : String
  file : String
  interval : Nat
  strategy : ResponseStrategy
  rules : List Rule
deriving DecidableEq

/-- The zero value `&rulespb.RuleGroup{}` that `Manager.Rules` allocates for a
filtered group: every field at its Go zero value. -/
def zeroRuleGroup : RuleGroup :=
  { name := "", file := "", interval := 0, strategy := zeroStrategy, rules := [] }

/-- Modelled from the spec: `rulespb.RulesRequest_Type`, the rule-kind filter. -/
inductive RequestType
  | ALL
  | ALERTING
  | RECORDING
deriving DecidableEq

/-- Modelled from the spec: a live rule owned by an evaluation engine
(§2 collaborator contract): per-rule definition data plus runtime
health/last-error/evaluation metadata maintained by the engine.  Active alert
instances are not modelled (their value is a float64). -/
inductive LiveRule
  | alertingRule (state : Nat) (name query : String) (durationSeconds : Nat)
      (labels anns : List (String × String)) (health : String)
      (lastError : Option String) (evalSeconds lastEval : Nat)
  | recordingRule (name query : String) (labels : List (String × String))
      (health : String) (lastError : Option String) (evalSeconds lastEval : Nat)
deriving DecidableEq

/-- Modelled from the spec: a live group owned by one engine (§3 LiveGroup):
name, originating (scratch) file, evaluation interval, ordered live rules. -/
structure LiveGroup where
  name : String
  file : String
  intervalSeconds : Nat
  rules : List LiveRule
deriving DecidableEq

/-- Modelled from the spec: one pooled evaluation engine
(`prometheus/rules.Manager`), observable through its current rule groups. -/
structure Engine where
  groups : List LiveGroup
deriving DecidableEq

/-- Source `Group` (manager.go): a live group tagged with the original file it
came from and its response strategy. -/
structure Group where
  group : LiveGroup
  originalFile : String
  strategy : ResponseStrategy
deriving DecidableEq

/-- Source `AlertingRule.ActiveAlertsToProto`-adjacent conversion is not
modelled (float formatting); `ruleToProto` mirrors the per-rule switch in
`Group.ToProto`, including the lastError empty-string defaulting. -/
def ruleToProto : LiveRule → Rule
  | .alertingRule st n q d lb an h le es lv =>
      .alert { state := st, name := n, query := q, durationSeconds := d,
               labels := lb, anns := an, health := h, lastError := le.getD "",
               evaluationDurationSeconds := es, lastEvaluation := lv }
  | .recordingRule n q lb h le es lv =>
      .recording { name := n, query := q, labels := lb, health := h,
                   lastError := le.getD "",
                   evaluationDurationSeconds := es, lastEvaluation := lv }

/-- Source `Group.ToProto` (manager.go lines 38-85). -/
def Group.toProto (g : Group) : RuleGroup :=
  { name := g.group.name
    file := g.originalFile
    interval := g.group.intervalSeconds
    strategy := g.strategy
    rules := g.group.rules.map ruleToProto }

/-- Source `Manager` (manager.go): working directory for scratch files, one
engine per strategy (`NewManager` creates an entry for every enum member, so
the pool is total), and the scratch-file → original-file index. -/
structure Manager where
  workDir : String
  mgrs : ResponseStrategy → Engine
  ruleFiles : List (String × String)

/-- Source `Manager.RuleGroups` (manager.go lines 163-177): gather every
engine's groups, tagging each with its strategy and with the original file
looked up in `ruleFiles` (Go map read: empty string when absent). -/
def Manager.ruleGroups (m : Manager) : List Group :=
  (allStrategies.map (fun s =>
    (m.mgrs s).groups.map (fun group =>
      { group := group
        strategy := s
        originalFile := (m.ruleFiles.lookup group.file).getD "" }))).flatten

/-- The filtering loop body of `Manager.Rules` (manager.go lines 331-339):
keep alert rules under ALERTING, recording rules under RECORDING. -/
def filterRules (t : RequestType) : List Rule → List Rule
  | [] => []
  | r :: rest =>
    if r.getAlert.isSome ∧ t = .ALERTING then r :: filterRules t rest
    else if r.getRecording.isSome ∧ t = .RECORDING then r :: filterRules t rest
    else filterRules t rest

/-- Source `Manager.Rules` (manager.go lines 319-348) up to the transport loop:
the ordered list `pgs` of group messages the stream will emit.  For ALL the
projected group is emitted as is (the source calls `ToProto` twice; it is
pure); otherwise a zero-valued `&rulespb.RuleGroup{}` is populated with only
the filtered rules. -/
def Manager.rulesList (m : Manager) (t : RequestType) : List RuleGroup :=
  (Manager.ruleGroups m).map (fun g =>
    let pGroup := Group.toProto g
    if t = .ALL then Group.toProto g
    else { zeroRuleGroup with rules := filterRules t pGroup.rules })

/-!
SHA-256 (FIPS 180-4), modelling Go's `crypto/sha256.Sum256`, which
`Manager.Update` applies to the full original file path when deriving scratch
file names.  Executable on `List Nat` byte strings; machine words are `Nat`
reduced modulo `2 ^ 32`.
-/

/-- The 32-bit modulus `2 ^ 32`. -/
def M32 : Nat := 4294967296

/-- Right rotation of a 32-bit word. -/
def rotr32 (n x : Nat) : Nat := (x >>> n) ||| ((x <<< (32 - n)) % M32)

/-- The eight-word SHA-256 working state. -/
structure Hash8 where
  a : Nat
  b : Nat
  c : Nat
  d : Nat
  e : Nat
  f : Nat
  g : Nat
  hh : Nat

/-- SHA-256 initial hash value (FIPS 180-4 §5.3.3, written in decimal). -/
def initH : Hash8 :=
  ⟨1779033703, 3144134277, 1013904242, 2773480762,
   1359893119, 2600822924, 528734635, 1541459225⟩

/-- SHA-256 round constants (FIPS 180-4 §4.2.2, written in decimal). -/
def K256 : List Nat :=
  [1116352408, 1899447441, 3049323471, 3921009573,
   961987163, 1508970993, 2453635748, 2870763221,
   3624381080, 310598401, 607225278, 1426881987,
   1925078388, 2162078206, 2614888103, 3248222580,
   3835390401, 4022224774, 264347078, 604807628,
   770255983, 1249150122, 1555081692, 1996064986,
   2554220882, 2821834349, 2952996808, 3210313671,
   3336571891, 3584528711, 113926993, 338241895,
   666307205, 773529912, 1294757372, 1396182291,
   1695183700, 1986661051, 2177026350, 2456956037,
   2730485921, 2820302411, 3259730800, 3345764771,
   3516065817, 3600352804, 4094571909, 275423344,
   430227734, 506948616, 659060556, 883997877,
   958139571, 1322822218, 1537002063, 1747873779,
   1955562222, 2024104815, 2227730452, 2361852424,
   2428436474, 2756734187, 3204031479, 3329325298]

/-- Big-endian eight-byte encoding of the message bit length. -/
def be64 (n : Nat) : List Nat :=
  [(n >>> 56) &&& 255, (n >>> 48) &&& 255, (n >>> 40) &&& 255, (n >>> 32) &&& 255,
   (n >>> 24) &&& 255, (n >>> 16) &&& 255, (n >>> 8) &&& 255, n &&& 255]

/-- SHA-256 message padding to a multiple of 64 bytes. -/
def pad (msg : List Nat) : List Nat :=
  msg ++ 0x80 :: (List.replicate ((119 - (msg.length % 64)) % 64) 0 ++ be64 (8 * msg.length))

/-- Structural (fuel-indexed) block splitter, so the kernel can evaluate it. -/
def chunksAux : Nat → List Nat → List (List Nat)
  | 0, _ => []
  | _, [] => []
  | fuel+1, l => l.take 64 :: chunksAux fuel (l.drop 64)

/-- Split a byte string into 64-byte blocks. -/
def chunks64 (l : List Nat) : List (List Nat) := chunksAux l.length l

/-- Big-endian 32-bit word `i` of a block. -/
def wordAt (block : List Nat) (i : Nat) : Nat :=
  ((block.getD (4*i) 0) <<< 24) ||| ((block.getD (4*i+1) 0) <<< 16) |||
  ((block.getD (4*i+2) 0) <<< 8) ||| (block.getD (4*i+3) 0)

/-- One message-schedule extension step. -/
def scheduleStep (w : List Nat) : List Nat :=
  let t := w.length
  let w15 := w.getD (t - 15) 0
  let w2 := w.getD (t - 2) 0
  let s0 := (rotr32 7 w15) ^^^ (rotr32 18 w15) ^^^ (w15 >>> 3)
  let s1 := (rotr32 17 w2) ^^^ (rotr32 19 w2) ^^^ (w2 >>> 10)
  w ++ [(w.getD (t - 16) 0 + s0 + w.getD (t - 7) 0 + s1) % M32]

/-- The 64-word message schedule of one block. -/
def fullSchedule (block : List Nat) : List Nat :=
  (List.range 48).foldl (fun w _ => scheduleStep w) ((List.range 16).map (wordAt block))

/-- One SHA-256 compression round. -/
def compressStep (ws : List Nat) (st : Hash8) (t : Nat) : Hash8 :=
  let S1 := (rotr32 6 st.e) ^^^ (rotr32 11 st.e) ^^^ (rotr32 25 st.e)
  let ch := (st.e &&& st.f) ^^^ ((st.e ^^^ 0xFFFFFFFF) &&& st.g)
  let T1 := (st.hh + S1 + ch + K256.getD t 0 + ws.getD t 0) % M32
  let S0 := (rotr32 2 st.a) ^^^ (rotr32 13 st.a) ^^^ (rotr32 22 st.a)
  let maj := (st.a &&& st.b) ^^^ (st.a &&& st.c) ^^^ (st.b &&& st.c)
  let T2 := (S0 + maj) % M32
  ⟨(T1 + T2) % M32, st.a, st.b, st.c, (st.d + T1) % M32, st.e, st.f, st.g⟩

/-- Compression of one 64-byte block into the running hash state. -/
def compress (st : Hash8) (block : List Nat) : Hash8 :=
  let ws := fullSchedule block
  let w := (List.range 64).foldl (compressStep ws) st
  ⟨(st.a + w.a) % M32, (st.b + w.b) % M32, (st.c + w.c) % M32, (st.d + w.d) % M32,
   (st.e + w.e) % M32, (st.f + w.f) % M32, (st.g + w.g) % M32, (st.hh + w.hh) % M32⟩

/-- SHA-256 digest of a byte string, as the eight final hash words. -/
def sha256words (msg : List Nat) : List Nat :=
  let fin := (chunks64 (pad msg)).foldl compress initH
  [fin.a, fin.b, fin.c, fin.d, fin.e, fin.f, fin.g, fin.hh]

/-- Big-endian bytes of one hash word. -/
def word4bytes (w : Nat) : List Nat :=
  [(w >>> 24) &&& 255, (w >>> 16) &&& 255, (w >>> 8) &&& 255, w &&& 255]

/-- Lowercase hexadecimal digit, as produced by Go's `%x` verb. -/
def hexChar (n : Nat) : Char :=
  if n < 10 then Char.ofNat (48 + n) else Char.ofNat (87 + n)

/-- Lowercase hexadecimal rendering of a byte string. -/
def bytesToHexChars (bs : List Nat) : List Char :=
  (bs.map (fun b => [hexChar (b / 16), hexChar (b % 16)])).flatten

/-- UTF-8 encoding of one character, matching Go's `[]byte(string)` view. -/
def utf8Bytes (c : Char) : List Nat :=
  let n := c.toNat
  if n < 0x80 then [n]
  else if n < 0x800 then [0xC0 ||| (n >>> 6), 0x80 ||| (n &&& 0x3F)]
  else if n < 0x10000 then
    [0xE0 ||| (n >>> 12), 0x80 ||| ((n >>> 6) &&& 0x3F), 0x80 ||| (n &&& 0x3F)]
  else
    [0xF0 ||| (n >>> 18), 0x80 ||| ((n >>> 12) &&& 0x3F),
     0x80 ||| ((n >>> 6) &&& 0x3F), 0x80 ||| (n &&& 0x3F)]

/-- UTF-8 byte string of a Lean string. -/
def strBytes (s : String) : List Nat := (s.toList.map utf8Bytes).flatten

/-- Go's `fmt.Sprintf("%x", sha256.Sum256([]byte(s)))`: the 64-character
lowercase hex rendering of the SHA-256 digest of `s`. -/
def sha256hex (s : String) : String :=
  String.mk (bytesToHexChars ((sha256words (strBytes s)).map word4bytes).flatten)

/-!
Path handling, modelling the two `path/filepath` calls the source makes.
-/

/-- Modelled from the spec: Go's `filepath.Base` — strip trailing separators and
take the last path component ("." for the empty path, "/" when the path is
all separators). -/
def baseName (p : String) : String :=
  if p = "" then "."
  else
    let cs := (p.toList.reverse.dropWhile (fun c => c == '/')).reverse
    if cs.isEmpty then "/"
    else String.mk ((cs.reverse.takeWhile (fun c => !(c == '/'))).reverse)

/-- Modelled from the spec: Go's `filepath.Join dir name` for a clean `dir` and a
separator-free `name`, which is how the source uses it (scratch names contain
no separators). -/
def joinPath (dir name : String) : String := dir ++ "/" ++ name

/-- The scratch-file name `Manager.Update` derives for one (source file, policy)
pair (manager.go line 287):
`filepath.Join(workDir, fmt.Sprintf("%s.%x.%s", filepath.Base(fn), sha256.Sum256([]byte(fn)), s.String()))`. -/
def scratchName (wd fn : String) (s : ResponseStrategy) : String :=
  joinPath wd (baseName fn ++ "." ++ sha256hex fn ++ "." ++ ResponseStrategy.toStr s)

/-!
Config parsing (`configRuleGroup.UnmarshalYAML`, manager.go lines 189-218)
and the reload (`Manager.Update`, lines 239-316).  YAML decoding of the outer
document structure and the filesystem are external; they are modelled by
`FileContent` and `FSModel`.
-/

/-- Modelled from the spec: one rule definition (§3 RuleDef), the tagged union of
alerting and recording shapes. -/
inductive RuleDef
  | alertDef (name query : String) (forSeconds : Nat)
      (labels anns : List (String × String))
  | recordDef (name query : String) (labels : List (String × String))
deriving DecidableEq

/-- Modelled from the spec: the policy-stripped payload of one rule group
document (`rulefmt.RuleGroup`): name, optional interval, ordered rule
definitions.  Serialization round-trips through the scratch file unchanged,
so the payload is carried opaquely through partitioning. -/
structure RuleGroupData where
  name : String
  interval : Option Nat
  rules : List RuleDef
deriving DecidableEq

/-- Modelled from the spec: one group document as the YAML decoder hands it to
`configRuleGroup.UnmarshalYAML`: the raw `partial_response_strategy` string
(empty when the tag is absent) plus the group payload. -/
structure RawGroup where
  strategyStr : String
  data : RuleGroupData
deriving DecidableEq

/-- Source `configRuleGroup`: a parsed group with its resolved strategy. -/
structure ConfigRuleGroup where
  strategy : ResponseStrategy
  data : RuleGroupData
deriving DecidableEq

/-- The `errMsg` prefix built in `configRuleGroup.UnmarshalYAML`. -/
def policyErrMsg : String :=
  "failed to unmarshal 'partial_response_strategy'. Possible values are " ++ strategyValuesJoined

/-- Go `errors.Wrap(err, ctx)` as rendered by `Error()`. -/
def wrapErr (ctx err : String) : String := ctx ++ ": " ++ err

/-- Modelled from the spec: Go's `strings.ToUpper` as used for the
case-insensitive enum lookup.  ASCII uppercasing suffices here: the enum
member names are ASCII, and no character outside ASCII uppercases into
them. -/
def strToUpper (s : String) : String := String.mk (s.toList.map Char.toUpper)

/-- Source `configRuleGroup.UnmarshalYAML` policy resolution (manager.go lines
204-217): look the upper-cased tag up in the enum table; an unknown non-empty
tag is an error carrying the invalid string; an absent (empty) tag resolves
to ABORT. -/
def parseConfigRuleGroup (r : RawGroup) : Except String ConfigRuleGroup :=
  match strategyValue (strToUpper r.strategyStr) with
  | some p => .ok ⟨p, r.data⟩
  | none =>
    if r.strategyStr ≠ "" then .error (policyErrMsg ++ ". Got: " ++ r.strategyStr)
    else .ok ⟨.ABORT, r.data⟩

/-- Decoding of a whole document: the YAML decoder runs `UnmarshalYAML` on each
group in order and fails on the first group error. -/
def parseDoc (raws : List RawGroup) : Except String (List ConfigRuleGroup) :=
  raws.mapM parseConfigRuleGroup

/-- Modelled from the spec: what reading and structurally decoding one configured
file can yield — a read error, a document-level YAML error, or the list of
group documents. -/
inductive FileContent
  | readErr (msg : String)
  | malformed (msg : String)
  | doc (raws : List RawGroup)

/-- Modelled from the spec: the filesystem effects `Manager.Update` performs —
scratch directory removal/creation, per-file reads, and scratch writes —
each with its possible error. -/
structure FSModel where
  removeAllError : Option String
  mkdirAllError : Option String
  read : String → FileContent
  writeError : String → Option String

/-- One successful partition output: a scratch file for one (file, policy)
pair, with the original path and the serialized groups it carries. -/
structure ScratchEntry where
  strategy : ResponseStrategy
  path : String
  orig : String
  content : List RuleGroupData
deriving DecidableEq

/-- The per-policy bucket of one parsed file (`groupsByStrategy`), preserving
the original group order. -/
def bucketFor (cfgs : List ConfigRuleGroup) (s : ResponseStrategy) : List RuleGroupData :=
  (cfgs.filter (fun c => decide (c.strategy = s))).map (fun c => c.data)

/-- The body of `Manager.Update`'s scratch-write loop for one strategy of one
file (manager.go lines 280-295): skip empty buckets, derive the scratch
name, attempt the write (a failed write is recorded and skipped), and on
success record the scratch entry. -/
def perStrategy (fsm : FSModel) (wd fn : String) (cfgs : List ConfigRuleGroup)
    (s : ResponseStrategy) : List String × List ScratchEntry :=
  let bucket := bucketFor cfgs s
  if bucket.isEmpty then ([], [])
  else
    let newFn := scratchName wd fn s
    match fsm.writeError newFn with
    | some e => ([wrapErr newFn e], [])
    | none => ([], [⟨s, newFn, fn, bucket⟩])

/-- Processing of one configured file inside `Manager.Update`'s main loop
(manager.go lines 253-296): read, decode, bucket by strategy, write scratch
files; returns the errors recorded for this file and the scratch entries it
contributed. -/
def processFile (fsm : FSModel) (wd fn : String) : List String × List ScratchEntry :=
  match fsm.read fn with
  | .readErr e => ([e], [])
  | .malformed e => ([wrapErr fn e], [])
  | .doc raws =>
    match parseDoc raws with
    | .error e => ([wrapErr fn e], [])
    | .ok cfgs =>
      let rs := allStrategies.map (perStrategy fsm wd fn cfgs)
      ((rs.map (fun r => r.1)).flatten, (rs.map (fun r => r.2)).flatten)

/-- The accumulator of `Manager.Update`'s file loop: the multi-error being
collected and the scratch entries (`filesByStrategy` plus `ruleFiles`). -/
structure UpdAcc where
  errs : List String
  entries : List ScratchEntry

/-- The file loop of `Manager.Update`: best-effort left fold over the input
files, appending each file's errors and scratch entries. -/
def updateLoop (fsm : FSModel) (wd : String) : List String → UpdAcc → UpdAcc
  | [], acc => acc
  | fn :: rest, acc =>
    let r := processFile fsm wd fn
    updateLoop fsm wd rest ⟨acc.errs ++ r.1, acc.entries ++ r.2⟩

/-- Derived live rule state for a freshly loaded rule definition. -/
def liveOfDef : RuleDef → LiveRule
  | .alertDef n q d lb an => .alertingRule 0 n q d lb an "unknown" none 0 0
  | .recordDef n q lb => .recordingRule n q lb "unknown" none 0 0

/-- The live group an engine builds from one serialized group of a scratch
file, applying the default evaluation interval when the group has none. -/
def liveGroupOfData (evalInterval : Nat) (file : String) (d : RuleGroupData) : LiveGroup :=
  { name := d.name, file := file, intervalSeconds := d.interval.getD evalInterval,
    rules := d.rules.map liveOfDef }

/-- Modelled from the spec: the engine collaborator's reconfigure/swap operation
(§2, §4.2) — `rules.Manager.Update(interval, files, nil)` replaces the
engine's loaded groups wholesale with the groups read from the given files.
The scratch store plays the role of the disk contents. -/
def Engine.updateFiles (_e : Engine) (store : List (String × List RuleGroupData))
    (fs : List String) (evalInterval : Nat) : Engine :=
  ⟨(fs.map (fun f => ((store.lookup f).getD []).map (liveGroupOfData evalInterval f))).flatten⟩

/-- Source `Manager.Update` (manager.go lines 239-316).  A scratch-directory
removal or creation failure returns immediately with a single wrapped error.
Otherwise every file is processed best-effort; then, for each strategy that
received scratch files, that engine is reconfigured (strategies with no
scratch files are not touched — the loop ranges over `filesByStrategy`);
the file index is replaced wholesale; and the collected multi-error is
returned (`nil` when empty).  The `no manager found` branch is unreachable
because `NewManager` populates an engine for every enum member, which the
total `mgrs` field captures. -/
def Manager.update (m : Manager) (fsm : FSModel) (evalInterval : Nat)
    (files : List String) : Manager × Option (List String) :=
  match fsm.removeAllError with
  | some e => (m, some [wrapErr ("failed to remove " ++ m.workDir) e])
  | none =>
    match fsm.mkdirAllError with
    | some e => (m, some [wrapErr ("failed to create " ++ m.workDir) e])
    | none =>
      let acc := updateLoop fsm m.workDir files ⟨[], []⟩
      let store := acc.entries.map (fun en => (en.path, en.content))
      let mgrs' := fun s =>
        let fsS := (acc.entries.filter (fun en => decide (en.strategy = s))).map
          (fun en => en.path)
        if fsS.isEmpty then m.mgrs s
        else Engine.updateFiles (m.mgrs s) store fsS evalInterval
      ({ m with mgrs := mgrs', ruleFiles := acc.entries.map (fun en => (en.path, en.orig)) },
       if acc.errs.isEmpty then none else some acc.errs)

/-!
Supporting lemmas.
-/

set_option maxRecDepth 100000 in
/-- FIPS 180-4 test vector: the digest of the empty message. -/
theorem sha256hex_empty_vector :
    sha256hex "" = "e3b0c44298fc1c149afbf4c8996fb92427ae41e4649b934ca495991b7852b855" := by
  decide

set_option maxRecDepth 100000 in
/-- FIPS 180-4 test vector: the digest of "abc". -/
theorem sha256hex_abc_vector :
    sha256hex "abc" = "ba7816bf8f01cfea414140de5dae2223b00361a396177a9cb410ff61f20015ad" := by
  decide

/-- Filtering for ALERTING keeps exactly the alert-kind rules, in order. -/
theorem filterRules_alerting (rs : List Rule) :
    filterRules .ALERTING rs = rs.filter (fun r => r.getAlert.isSome) := by
  induction rs with
  | nil => rfl
  | cons r rest ih => cases r <;> simp [filterRules, Rule.getAlert, Rule.getRecording, ih]

/-- Filtering for RECORDING keeps exactly the recording-kind rules, in order. -/
theorem filterRules_recording (rs : List Rule) :
    filterRules .RECORDING rs = rs.filter (fun r => r.getRecording.isSome) := by
  induction rs with
  | nil => rfl
  | cons r rest ih => cases r <;> simp [filterRules, Rule.getAlert, Rule.getRecording, ih]

/-- Every projected rule is of exactly one kind, so the two filtered lists
partition the rule list by length. -/
theorem filterRules_length_partition (rs : List Rule) :
    (filterRules .ALERTING rs).length + (filterRules .RECORDING rs).length = rs.length := by
  induction rs with
  | nil => rfl
  | cons r rest ih =>
    cases r <;> simp [filterRules, Rule.getAlert, Rule.getRecording] <;> omega

/-- The ALL response projects every gathered group unfiltered. -/
theorem rulesList_all (m : Manager) :
    Manager.rulesList m .ALL = (Manager.ruleGroups m).map Group.toProto := by
  simp [Manager.rulesList]

/-- A non-ALL response emits, per gathered group, a zero-valued group holding
only the filtered rules. -/
theorem rulesList_filtered (m : Manager) (t : RequestType) (h : t ≠ .ALL) :
    Manager.rulesList m t = (Manager.ruleGroups m).map
      (fun g => { zeroRuleGroup with rules := filterRules t (Group.toProto g).rules }) := by
  simp [Manager.rulesList, h]

/-- Pointwise relation between two images of the same list. -/
theorem forall₂_map_pair {α β γ : Type _} (R : β → γ → Prop) (f : α → β) (g : α → γ)
    (h : ∀ a, R (f a) (g a)) : ∀ l : List α, List.Forall₂ R (l.map f) (l.map g)
  | [] => List.Forall₂.nil
  | a :: l => List.Forall₂.cons (h a) (forall₂_map_pair R f g h l)

/-- Per-group length bookkeeping behind the filtering law. -/
theorem zip_count_eq (l : List Group) :
    l.map (fun g => (Group.toProto g).rules.length) =
      List.zipWith (· + ·)
        (l.map (fun g => (filterRules .ALERTING (Group.toProto g).rules).length))
        (l.map (fun g => (filterRules .RECORDING (Group.toProto g).rules).length)) := by
  induction l with
  | nil => rfl
  | cons g t ih =>
    simp only [List.map_cons, List.zipWith_cons_cons, ih]
    rw [filterRules_length_partition (Group.toProto g).rules]

/-- C8: matched by position, every group in the ALL response carries as many
rules as its ALERTING-filtered and RECORDING-filtered counterparts combined;
the three responses enumerate the same groups in the same order, so the
per-position rule counts satisfy ALL = ALERTING + RECORDING. -/
theorem claim8_rule_count_partition (m : Manager) :
    ((Manager.rulesList m .ALERTING).length = (Manager.rulesList m .ALL).length ∧
     (Manager.rulesList m .RECORDING).length = (Manager.rulesList m .ALL).length) ∧
    ((Manager.rulesList m .ALL).map (fun g => g.rules.length)) =
      List.zipWith (· + ·)
        ((Manager.rulesList m .ALERTING).map (fun g => g.rules.length))
        ((Manager.rulesList m .RECORDING).map (fun g => g.rules.length)) := by
  refine ⟨⟨?_, ?_⟩, ?_⟩
  · simp [rulesList_all, rulesList_filtered]
  · simp [rulesList_all, rulesList_filtered]
  · rw [rulesList_all, rulesList_filtered m .ALERTING (by simp),
      rulesList_filtered m .RECORDING (by simp)]
    simp only [List.map_map, Function.comp_def, Group.toProto]
    exact zip_count_eq (Manager.ruleGroups m)

/-- C10: projection preserves order — the ALL response lists each group's rules
in the live order; each kind filter produces exactly the matching-kind
subsequence of the ALL rule list, in the same relative order (stated both as
a `filter` equation and as a sublist fact, position by position). -/
theorem claim10_projection_order (m : Manager) :
    ((Manager.rulesList m .ALL).map (fun g => g.rules) =
      (Manager.ruleGroups m).map (fun g => g.group.rules.map ruleToProto)) ∧
    ((Manager.rulesList m .ALERTING).map (fun g => g.rules) =
      ((Manager.rulesList m .ALL).map (fun g => g.rules)).map
        (fun rs => rs.filter (fun r => r.getAlert.isSome))) ∧
    ((Manager.rulesList m .RECORDING).map (fun g => g.rules) =
      ((Manager.rulesList m .ALL).map (fun g => g.rules)).map
        (fun rs => rs.filter (fun r => r.getRecording.isSome))) ∧
    List.Forall₂ List.Sublist
      ((Manager.rulesList m .ALERTING).map (fun g => g.rules))
      ((Manager.rulesList m .ALL).map (fun g => g.rules)) ∧
    List.Forall₂ List.Sublist
      ((Manager.rulesList m .RECORDING).map (fun g => g.rules))
      ((Manager.rulesList m .ALL).map (fun g => g.rules)) := by
  refine ⟨?_, ?_, ?_, ?_, ?_⟩
  · simp [rulesList_all, Group.toProto]
  · rw [rulesList_all, rulesList_filtered m .ALERTING (by simp)]
    simp [List.map_map, Function.comp_def, filterRules_alerting]
  · rw [rulesList_all, rulesList_filtered m .RECORDING (by simp)]
    simp [List.map_map, Function.comp_def, filterRules_recording]
  · rw [rulesList_all, rulesList_filtered m .ALERTING (by simp)]
    simp only [List.map_map, Function.comp_def]
    exact forall₂_map_pair _ _ _
      (fun g => by simp [filterRules_alerting]) _
  · rw [rulesList_all, rulesList_filtered m .RECORDING (by simp)]
    simp only [List.map_map, Function.comp_def]
    exact forall₂_map_pair _ _ _
      (fun g => by simp [filterRules_recording]) _

/-- C2: policy resolution per group document — a tag matching a known enum
member case-insensitively resolves to that member; an absent (empty) tag
resolves to ABORT; any other tag fails that document's parse with an error
that carries the invalid string, and the reload loop wraps it with the
offending file's path, so the surfaced error names both; no policy is
resolved (the parse returns no group). -/
theorem claim2_policy_resolution (fn s : String) (d : RuleGroupData) :
    (∀ p, strategyValue (strToUpper s) = some p →
      parseConfigRuleGroup ⟨s, d⟩ = .ok ⟨p, d⟩) ∧
    (s = "" → parseConfigRuleGroup ⟨s, d⟩ = .ok ⟨.ABORT, d⟩) ∧
    (strategyValue (strToUpper s) = none → s ≠ "" →
      parseConfigRuleGroup ⟨s, d⟩ = .error (policyErrMsg ++ ". Got: " ++ s)) ∧
    (∀ (fsm : FSModel) (wd : String) (raws : List RawGroup) (e : String),
      fsm.read fn = .doc raws → parseDoc raws = .error e →
      processFile fsm wd fn = ([wrapErr fn e], [])) := by
  refine ⟨?_, ?_, ?_, ?_⟩
  · intro p h
    simp [parseConfigRuleGroup, h]
  · intro h
    subst h
    rfl
  · intro h1 h2
    simp [parseConfigRuleGroup, h1, h2]
  · intro fsm wd raws e h1 h2
    simp [processFile, h1, h2]

/-- The sample group payload used by concrete witnesses. -/
def sampleData : RuleGroupData := ⟨"g", none, [RuleDef.recordDef "r" "q" []]⟩

/-- Concrete instantiation of the policy-resolution theorem: a lower-case
"warn" tag, an absent tag, and a "bogus" tag on file "f.yaml". -/
theorem claim2_policy_resolution_witness :
    (strategyValue (strToUpper "warn") = some .WARN ∧
      parseConfigRuleGroup ⟨"warn", sampleData⟩ = .ok ⟨.WARN, sampleData⟩) ∧
    (parseConfigRuleGroup ⟨"", sampleData⟩ = .ok ⟨.ABORT, sampleData⟩) ∧
    (strategyValue (strToUpper "bogus") = none ∧ "bogus" ≠ "" ∧
      parseConfigRuleGroup ⟨"bogus", sampleData⟩ =
        .error (policyErrMsg ++ ". Got: " ++ "bogus")) :=
  ⟨⟨by decide, (claim2_policy_resolution "f.yaml" "warn" sampleData).1 .WARN (by decide)⟩,
   (claim2_policy_resolution "f.yaml" "" sampleData).2.1 rfl,
   ⟨by decide, by decide,
    (claim2_policy_resolution "f.yaml" "bogus" sampleData).2.2.1 (by decide) (by decide)⟩⟩

/-- The reload's file loop never aborts: its collected errors are exactly the
concatenation of every file's errors, in input order. -/
theorem updateLoop_errs (fsm : FSModel) (wd : String) (files : List String) :
    ∀ acc, (updateLoop fsm wd files acc).errs =
      acc.errs ++ (files.map (fun fn => (processFile fsm wd fn).1)).flatten := by
  induction files with
  | nil => intro acc; simp [updateLoop]
  | cons fn rest ih => intro acc; simp [updateLoop, ih, List.append_assoc]

/-- The reload's file loop accumulates the scratch entries of every file, in
input order. -/
theorem updateLoop_entries (fsm : FSModel) (wd : String) (files : List String) :
    ∀ acc, (updateLoop fsm wd files acc).entries =
      acc.entries ++ (files.map (fun fn => (processFile fsm wd fn).2)).flatten := by
  induction files with
  | nil => intro acc; simp [updateLoop]
  | cons fn rest ih => intro acc; simp [updateLoop, ih, List.append_assoc]

/-- C3: when the scratch directory setup succeeds, the reload processes every
file best-effort — the returned value merges all failing files' errors into
one aggregate (and is nil exactly when none failed); the file index records
the scratch entries of every successfully partitioned file; and every
strategy that received scratch files has its engine reconfigured with
exactly those files (a failing file never prevents later files from being
processed, pushed, and indexed). -/
theorem claim3_update_best_effort (m : Manager) (fsm : FSModel) (iv : Nat)
    (files : List String)
    (h1 : fsm.removeAllError = none) (h2 : fsm.mkdirAllError = none) :
    ((Manager.update m fsm iv files).2 =
      if ((files.map (fun fn => (processFile fsm m.workDir fn).1)).flatten).isEmpty then none
      else some ((files.map (fun fn => (processFile fsm m.workDir fn).1)).flatten)) ∧
    ((Manager.update m fsm iv files).1.ruleFiles =
      ((files.map (fun fn => (processFile fsm m.workDir fn).2)).flatten).map
        (fun en => (en.path, en.orig))) ∧
    (∀ s : ResponseStrategy,
      (Manager.update m fsm iv files).1.mgrs s =
        (if (((((files.map (fun fn => (processFile fsm m.workDir fn).2)).flatten).filter
                (fun en => decide (en.strategy = s))).map (fun en => en.path))).isEmpty
         then m.mgrs s
         else Engine.updateFiles (m.mgrs s)
           (((files.map (fun fn => (processFile fsm m.workDir fn).2)).flatten).map
             (fun en => (en.path, en.content)))
           ((((files.map (fun fn => (processFile fsm m.workDir fn).2)).flatten).filter
              (fun en => decide (en.strategy = s))).map (fun en => en.path)) iv)) := by
  have e1 := updateLoop_errs fsm m.workDir files ⟨[], []⟩
  have e2 := updateLoop_entries fsm m.workDir files ⟨[], []⟩
  simp only [Manager.update, h1, h2]
  simp only [e1, e2]
  simp

/-- An engine with no loaded groups. -/
def engineEmpty : Engine := ⟨[]⟩

/-- A sample alerting-group payload for reload witnesses. -/
def goodData : RuleGroupData := ⟨"grp", some 30, [RuleDef.alertDef "a" "up == 0" 10 [] []]⟩

/-- Reload input for the best-effort witness: one malformed file, one good
file, no filesystem failures. -/
def fsmC3 : FSModel :=
  { removeAllError := none, mkdirAllError := none,
    read := fun fn =>
      if fn = "bad.yaml" then .malformed "boom"
      else if fn = "good.yaml" then .doc [⟨"warn", goodData⟩]
      else .readErr "open: no such file",
    writeError := fun _ => none }

/-- A fresh manager with empty engines and an empty file index. -/
def mC3 : Manager := ⟨"/data/.tmp-rules", fun _ => engineEmpty, []⟩

set_option maxRecDepth 1000000 in
/-- Concrete best-effort reload: the malformed file's wrapped error is the
whole aggregate, while the good file's scratch entry still lands in the file
index. -/
theorem claim3_update_best_effort_witness :
    (fsmC3.removeAllError = none ∧ fsmC3.mkdirAllError = none) ∧
    (Manager.update mC3 fsmC3 60 ["bad.yaml", "good.yaml"]).2 =
      some [wrapErr "bad.yaml" "boom"] ∧
    (Manager.update mC3 fsmC3 60 ["bad.yaml", "good.yaml"]).1.ruleFiles =
      [(scratchName "/data/.tmp-rules" "good.yaml" .WARN, "good.yaml")] := by
  refine ⟨⟨rfl, rfl⟩, ?_, ?_⟩
  · exact ((claim3_update_best_effort mC3 fsmC3 60 ["bad.yaml", "good.yaml"] rfl rfl).1).trans
      (by decide)
  · exact ((claim3_update_best_effort mC3 fsmC3 60 ["bad.yaml", "good.yaml"] rfl rfl).2.1).trans
      (by decide)

/-- A stale live group that an empty reload is supposed to tear down. -/
def staleGroup : LiveGroup :=
  ⟨"g0", "/data/.tmp-rules/rules.yaml.aa.WARN", 60,
   [LiveRule.recordingRule "r" "q" [] "ok" none 0 0]⟩

/-- A manager whose WARN engine still holds one group from a previous reload. -/
def mC4 : Manager :=
  ⟨"/data/.tmp-rules",
   fun s => match s with | .WARN => ⟨[staleGroup]⟩ | .ABORT => engineEmpty,
   [("/data/.tmp-rules/rules.yaml.aa.WARN", "/etc/rules.yaml")]⟩

/-- A filesystem with no failures (and no files to read). -/
def fsmClean : FSModel := ⟨none, none, fun _ => .readErr "unused", fun _ => none⟩

/-- C4 (falsifying evaluation): reloading `mC4` with an empty file list returns
no error, yet the subsequent listing still contains the previously loaded
group — the engine push loop ranges over `filesByStrategy`, which is empty,
so no engine is ever reconfigured and its old groups survive; the claimed
"zero groups for every policy" does not hold. -/
theorem claim4_empty_reload_keeps_stale_groups :
    (Manager.update mC4 fsmClean 60 []).2 = none ∧
    ((Manager.update mC4 fsmClean 60 []).1.ruleGroups).map (fun g => g.group.name) = ["g0"] ∧
    ((Manager.update mC4 fsmClean 60 []).1.ruleGroups).length ≠ 0 := by
  decide

/-- A live alerting rule for the filtering evaluations. -/
def alertLive : LiveRule := .alertingRule 0 "alert1" "up == 0" 10 [] [] "ok" none 0 0

/-- A live group holding one alerting rule. -/
def liveC1 : LiveGroup := ⟨"g1", "/data/.tmp-rules/rules.yaml.aa.WARN", 30, [alertLive]⟩

/-- A manager whose WARN engine holds `liveC1`, with its file indexed. -/
def mC1 : Manager :=
  ⟨"/data/.tmp-rules",
   fun s => match s with | .WARN => ⟨[liveC1]⟩ | .ABORT => engineEmpty,
   [("/data/.tmp-rules/rules.yaml.aa.WARN", "/etc/rules.yaml")]⟩

/-- C1 (falsifying evaluation): under the ALERTING filter the emitted group (same
position as in ALL, rules nonempty) carries zero-valued identity fields —
`Manager.Rules` fills a fresh `&rulespb.RuleGroup{}` with only the filtered
rules and never copies name/file/interval/strategy, so the filtered group's
identity differs from the unfiltered one's. -/
theorem claim1_filter_drops_group_identity :
    ((Manager.rulesList mC1 .ALL).map (fun g => (g.name, g.file, g.interval))) =
      [("g1", "/etc/rules.yaml", 30)] ∧
    ((Manager.rulesList mC1 .ALERTING).map (fun g => (g.name, g.file, g.interval))) =
      [("", "", 0)] ∧
    ((Manager.rulesList mC1 .ALERTING).map (fun g => g.rules.length)) = [1] ∧
    (("g1", "/etc/rules.yaml", 30) : String × String × Nat) ≠ ("", "", 0) := by
  decide

/-- Membership form of `Manager.RuleGroups`: every gathered group's original
file is the index lookup of its scratch file, defaulting to the empty
string. -/
theorem ruleGroups_file_lookup (m : Manager) (g : Group)
    (hg : g ∈ Manager.ruleGroups m) :
    (Group.toProto g).file = (m.ruleFiles.lookup g.group.file).getD "" := by
  unfold Manager.ruleGroups at hg
  rw [List.mem_flatten] at hg
  obtain ⟨l, hl, hgl⟩ := hg
  rw [List.mem_map] at hl
  obtain ⟨s, hs, rfl⟩ := hl
  rw [List.mem_map] at hgl
  obtain ⟨grp, hgrp, rfl⟩ := hgl
  rfl

/-- C5 (amended): the projected file field is the FileIndex lookup of the
group's scratch file, and when the scratch path is absent from the index the
field is the EMPTY string — there is no fallback to the scratch path. -/
theorem claim5_original_file_empty_when_absent (m : Manager) (g : Group)
    (hg : g ∈ Manager.ruleGroups m)
    (habs : m.ruleFiles.lookup g.group.file = none) :
    (Group.toProto g).file = "" := by
  rw [ruleGroups_file_lookup m g hg, habs]
  rfl

/-- A live group whose scratch file has no FileIndex entry. -/
def liveC5 : LiveGroup := ⟨"g5", "/data/.tmp-rules/orphan.bb.WARN", 15, []⟩

/-- A manager holding `liveC5` with an empty file index. -/
def mC5 : Manager :=
  ⟨"/data/.tmp-rules",
   fun s => match s with | .WARN => ⟨[liveC5]⟩ | .ABORT => engineEmpty,
   []⟩

/-- C5 counterexample: with the scratch path absent from the FileIndex, the
projected file field is the empty string, not the scratch path the claim
promises as a fallback. -/
theorem claim5_no_fallback_counterexample :
    ((Manager.ruleGroups mC5).map (fun g => (Group.toProto g).file)) = [""] ∧
    ¬ ((Manager.ruleGroups mC5).map (fun g => (Group.toProto g).file)) =
        ["/data/.tmp-rules/orphan.bb.WARN"] := by
  decide

/-- Concrete instantiation of the amended C5 statement on `mC5`. -/
theorem claim5_original_file_empty_when_absent_witness :
    ((⟨liveC5, "", .WARN⟩ : Group) ∈ Manager.ruleGroups mC5 ∧
      mC5.ruleFiles.lookup liveC5.file = none) ∧
    (Group.toProto ⟨liveC5, "", .WARN⟩).file = "" :=
  ⟨⟨by decide, by decide⟩,
   claim5_original_file_empty_when_absent mC5 ⟨liveC5, "", .WARN⟩ (by decide) (by decide)⟩

/-- C6 (amended): a failure to remove or recreate the scratch directory is NOT
aggregated — the reload aborts immediately, returning the manager unchanged
together with that single wrapped error; only per-file scratch writes are
treated best-effort. -/
theorem claim6_dir_error_aborts_reload (m : Manager) (fsm : FSModel) (iv : Nat)
    (files : List String) :
    (∀ e, fsm.removeAllError = some e →
      Manager.update m fsm iv files =
        (m, some [wrapErr ("failed to remove " ++ m.workDir) e])) ∧
    (∀ e, fsm.removeAllError = none → fsm.mkdirAllError = some e →
      Manager.update m fsm iv files =
        (m, some [wrapErr ("failed to create " ++ m.workDir) e])) := by
  constructor
  · intro e h
    simp [Manager.update, h]
  · intro e h1 h2
    simp [Manager.update, h1, h2]

/-- A filesystem whose scratch-directory removal fails while a perfectly
parsable file is waiting to be reloaded. -/
def fsmC6 : FSModel :=
  { removeAllError := some "permission denied", mkdirAllError := none,
    read := fun _ => .doc [⟨"", sampleData⟩], writeError := fun _ => none }

/-- A fresh manager for the aborted-reload evaluations. -/
def mC6 : Manager := ⟨"/data/.tmp-rules", fun _ => engineEmpty, []⟩

set_option maxRecDepth 1000000 in
/-- C6 counterexample: with the scratch-directory removal failing, the reload
returns only the wrapped directory error and processes nothing — the file
index stays empty even though the input file would have partitioned into a
scratch entry — contradicting "aggregated, best-effort continue". -/
theorem claim6_dir_error_counterexample :
    (Manager.update mC6 fsmC6 60 ["/etc/good.yaml"]).2 =
      some [wrapErr "failed to remove /data/.tmp-rules" "permission denied"] ∧
    (Manager.update mC6 fsmC6 60 ["/etc/good.yaml"]).1.ruleFiles = [] ∧
    (processFile fsmC6 "/data/.tmp-rules" "/etc/good.yaml").2 ≠ [] := by
  decide

/-- Concrete instantiation of the amended C6 statement. -/
theorem claim6_dir_error_aborts_reload_witness :
    fsmC6.removeAllError = some "permission denied" ∧
    Manager.update mC6 fsmC6 60 ["/etc/good.yaml"] =
      (mC6, some [wrapErr ("failed to remove " ++ mC6.workDir) "permission denied"]) :=
  ⟨rfl,
   (claim6_dir_error_aborts_reload mC6 fsmC6 60 ["/etc/good.yaml"]).1 "permission denied" rfl⟩

/-- Strings with equal character data are equal. -/
theorem strOfData {s t : String} (h : s.data = t.data) : s = t := by
  cases s
  cases t
  exact congrArg String.mk h

/-- Appending strings appends their character data. -/
theorem strData_append (s t : String) : (s ++ t).data = s.data ++ t.data := rfl

/-- The hex rendering of a SHA-256 digest always has 64 characters. -/
theorem sha256hex_data_length (s : String) : (sha256hex s).data.length = 64 := rfl

/-- Character-level normal form of a scratch-file name. -/
theorem scratchName_data (wd fn : String) (s : ResponseStrategy) :
    (scratchName wd fn s).data =
      wd.data ++ '/' :: ((baseName fn).data ++ '.' ::
        ((sha256hex fn).data ++ '.' :: (ResponseStrategy.toStr s).data)) := by
  simp only [scratchName, joinPath, strData_append]
  simp [List.append_assoc]

/-- Every scratch entry one strategy pass produces is named by `scratchName`
applied to its own original file and strategy. -/
theorem perStrategy_entry_path (fsm : FSModel) (wd fn : String)
    (cfgs : List ConfigRuleGroup) (s : ResponseStrategy) :
    ∀ en ∈ (perStrategy fsm wd fn cfgs s).2,
      en.path = scratchName wd en.orig en.strategy := by
  intro en hen
  simp only [perStrategy] at hen
  split at hen
  · simp at hen
  · split at hen
    · simp at hen
    · simp at hen
      subst hen
      rfl

/-- Every scratch entry a file contributes is named by `scratchName`. -/
theorem processFile_entry_path (fsm : FSModel) (wd fn : String) :
    ∀ en ∈ (processFile fsm wd fn).2, en.path = scratchName wd en.orig en.strategy := by
  intro en hen
  unfold processFile at hen
  split at hen
  · simp at hen
  · simp at hen
  · split at hen
    · simp at hen
    · simp only at hen
      rw [List.mem_flatten] at hen
      obtain ⟨l, hl, henl⟩ := hen
      rw [List.mem_map] at hl
      obtain ⟨r, hr, rfl⟩ := hl
      rw [List.mem_map] at hr
      obtain ⟨s, hs, rfl⟩ := hr
      exact perStrategy_entry_path fsm wd fn _ s en henl

/-- Every scratch entry of a whole reload cycle is named by `scratchName`. -/
theorem updateLoop_entry_path (fsm : FSModel) (wd : String) (files : List String) :
    ∀ en ∈ (updateLoop fsm wd files ⟨[], []⟩).entries,
      en.path = scratchName wd en.orig en.strategy := by
  intro en hen
  rw [updateLoop_entries] at hen
  simp only [List.nil_append] at hen
  rw [List.mem_flatten] at hen
  obtain ⟨l, hl, henl⟩ := hen
  rw [List.mem_map] at hl
  obtain ⟨fn, hfn, rfl⟩ := hl
  exact processFile_entry_path fsm wd fn en henl

/-- C7: scratch naming — every scratch file written in any reload cycle is named
by the fixed function `scratchName` of the original file path and policy
(base name, SHA-256 of the full path, policy name), so re-partitioning the
same (path, policy) pair in any two cycles yields a byte-identical name; and
any two source paths with distinct SHA-256 digests (in particular distinct
paths sharing a base name) never produce the same scratch name, for any
policy. -/
theorem claim7_scratch_naming (wd fn1 fn2 : String) (s : ResponseStrategy)
    (fsm : FSModel) (files : List String)
    (hne : sha256hex fn1 ≠ sha256hex fn2) :
    (∀ en ∈ (updateLoop fsm wd files ⟨[], []⟩).entries,
      en.path = scratchName wd en.orig en.strategy) ∧
    scratchName wd fn1 s ≠ scratchName wd fn2 s := by
  refine ⟨updateLoop_entry_path fsm wd files, ?_⟩
  intro heq
  apply hne
  apply strOfData
  have hd := congrArg String.data heq
  rw [scratchName_data, scratchName_data] at hd
  have hd2 := List.append_cancel_left hd
  injection hd2 with _ hd3
  have hb : (baseName fn1).data.length = (baseName fn2).data.length := by
    have hlen := congrArg List.length hd3
    simp only [List.length_append, List.length_cons, sha256hex_data_length] at hlen
    omega
  obtain ⟨-, h5⟩ := List.append_inj hd3 hb
  injection h5 with _ h6
  exact (List.append_inj h6 (by rw [sha256hex_data_length, sha256hex_data_length])).1

set_option maxRecDepth 1000000 in
/-- Concrete scratch-name collision freedom: two paths sharing the base name
"rules.yaml" hash differently and receive different scratch names. -/
theorem claim7_scratch_naming_witness :
    sha256hex "a/rules.yaml" ≠ sha256hex "b/rules.yaml" ∧
    scratchName "/data/.tmp-rules" "a/rules.yaml" .WARN ≠
      scratchName "/data/.tmp-rules" "b/rules.yaml" .WARN := by
  have h : sha256hex "a/rules.yaml" ≠ sha256hex "b/rules.yaml" := by decide
  exact ⟨h, (claim7_scratch_naming "/data/.tmp-rules" "a/rules.yaml" "b/rules.yaml" .WARN
    fsmClean [] h).2⟩

end ThanosRules
